import Mathlib

/-!
Verification of the multi-format configuration loader of `potato_util`
(`potato_util/io/_sync.py` and `potato_util/io/_async.py`).

The Python values flowing through the loader (results of the YAML / JSON /
TOML / INI decoders and of `deep_merge`) are modelled by the mutually
recursive sum type `ConfigValue` / `ConfigSeq` / `ConfigMap`.  Python
dictionaries are modelled as association lists with string keys; lookup
takes the first matching entry, as a Python dict never holds a duplicate
key.  The filesystem, the current working directory and the four external
parsing libraries (`yaml.safe_load`, `json.load`, `tomllib.load`,
`configparser`) are modelled by an explicit environment record `Env`; the
loader functions are translated from the Python source as functions of such
an environment.  Exceptions are modelled with `Except`.
-/

mutual

/-- Recursive sum type of decoded configuration values: Null, Boolean,
Number, String, Sequence and Mapping. -/
inductive ConfigValue where
  | none : ConfigValue
  | bool : Bool → ConfigValue
  | int : Int → ConfigValue
  | str : String → ConfigValue
  | list : ConfigSeq → ConfigValue
  | dict : ConfigMap → ConfigValue

/-- Sequence of configuration values (a Python list). -/
inductive ConfigSeq where
  | nil : ConfigSeq
  | cons : ConfigValue → ConfigSeq → ConfigSeq

/-- Mapping from string keys to configuration values (a Python dict),
as an ordered association list. -/
inductive ConfigMap where
  | nil : ConfigMap
  | cons : String → ConfigValue → ConfigMap → ConfigMap

end

/-- First-match lookup, the model of `d[k]` / `k in d` on a Python dict. -/
def ConfigMap.lookup (k : String) : ConfigMap → Option ConfigValue
  | ConfigMap.nil => Option.none
  | ConfigMap.cons k2 v rest => if k2 = k then some v else ConfigMap.lookup k rest

/-- Concatenation of two association lists. -/
def ConfigMap.append : ConfigMap → ConfigMap → ConfigMap
  | ConfigMap.nil, o => o
  | ConfigMap.cons k v rest, o => ConfigMap.cons k v (ConfigMap.append rest o)

/-- Entries of the second map whose key does not occur in the first map. -/
def ConfigMap.filterNew (b : ConfigMap) : ConfigMap → ConfigMap
  | ConfigMap.nil => ConfigMap.nil
  | ConfigMap.cons k v rest =>
    if (ConfigMap.lookup k b).isSome then ConfigMap.filterNew b rest
    else ConfigMap.cons k v (ConfigMap.filterNew b rest)

/-- Python truthiness of a `ConfigValue` (`None`, `False`, `0`, `""`, `[]`
and `{}` are falsy), used to model the `... or {}` idiom of the readers. -/
def pyTruthy : ConfigValue → Bool
  | ConfigValue.none => false
  | ConfigValue.bool b => b
  | ConfigValue.int n => decide (n ≠ 0)
  | ConfigValue.str s => decide (s ≠ "")
  | ConfigValue.list ConfigSeq.nil => false
  | ConfigValue.list (ConfigSeq.cons _ _) => true
  | ConfigValue.dict ConfigMap.nil => false
  | ConfigValue.dict (ConfigMap.cons _ _ _) => true

/-- Model of the Python expression `a or b`. -/
def pyOr (a b : ConfigValue) : ConfigValue := if pyTruthy a then a else b

/-- True exactly on mappings. -/
def ConfigValue.isDict : ConfigValue → Bool
  | ConfigValue.dict _ => true
  | _ => false

/-- True exactly on sequences. -/
def ConfigValue.isList : ConfigValue → Bool
  | ConfigValue.list _ => true
  | _ => false

mutual

/-- Modelled from the spec: the function `deep_merge` of `potato_util._base`
(imported by `potato_util/io/_sync.py`; the file `_base.py` itself is not
among the sources at hand).  Following the Deep-Merge Engine contract of the
spec: if both sides are mappings, the result is a mapping over the union of
their keys, recursing on keys present in both and copying one-sided keys
as-is; if both sides are sequences, the overlay replaces the base entirely;
in every other case (type mismatch or a scalar on either side, including a
null overlay) the overlay wins outright. -/
def deep_merge : ConfigValue → ConfigValue → ConfigValue
  | ConfigValue.dict b, ConfigValue.dict o =>
    ConfigValue.dict (ConfigMap.append (mergeBase b o) (ConfigMap.filterNew b o))
  | ConfigValue.list _, ConfigValue.list ys => ConfigValue.list ys
  | _, overlay => overlay

/-- Modelled from the spec, the mapping part of `deep_merge`: every key of
the base map keeps its position; a key also present in the overlay gets the
recursive merge of the two values, a key present only in the base keeps its
value as-is. -/
def mergeBase : ConfigMap → ConfigMap → ConfigMap
  | ConfigMap.nil, _ => ConfigMap.nil
  | ConfigMap.cons k v rest, o =>
    match ConfigMap.lookup k o with
    | some w => ConfigMap.cons k (deep_merge v w) (mergeBase rest o)
    | Option.none => ConfigMap.cons k v (mergeBase rest o)

end

theorem configMap_induction (P : ConfigMap → Prop) (hnil : P ConfigMap.nil)
    (hcons : ∀ k v rest, P rest → P (ConfigMap.cons k v rest)) : ∀ m, P m
  | ConfigMap.nil => hnil
  | ConfigMap.cons k v rest => hcons k v rest (configMap_induction P hnil hcons rest)

theorem lookup_append (k : String) (m1 m2 : ConfigMap) :
    ConfigMap.lookup k (ConfigMap.append m1 m2) =
      match ConfigMap.lookup k m1 with
      | some v => some v
      | Option.none => ConfigMap.lookup k m2 := by
  induction m1 using configMap_induction with
  | hnil => simp [ConfigMap.append, ConfigMap.lookup]
  | hcons k2 v rest ih =>
    simp only [ConfigMap.append, ConfigMap.lookup]
    by_cases h : k2 = k <;> simp [h, ih]

theorem lookup_mergeBase (k : String) (b o : ConfigMap) :
    ConfigMap.lookup k (mergeBase b o) =
      match ConfigMap.lookup k b with
      | some v =>
        some (match ConfigMap.lookup k o with
              | some w => deep_merge v w
              | Option.none => v)
      | Option.none => Option.none := by
  induction b using configMap_induction with
  | hnil => simp [mergeBase, ConfigMap.lookup]
  | hcons k2 v rest ih =>
    simp only [mergeBase]
    cases hlo : ConfigMap.lookup k2 o with
    | none =>
      simp only [ConfigMap.lookup]
      by_cases h : k2 = k
      · subst h; simp [hlo]
      · simp [h, ih]
    | some w =>
      simp only [ConfigMap.lookup]
      by_cases h : k2 = k
      · subst h; simp [hlo]
      · simp [h, ih]

theorem lookup_filterNew (k : String) (b o : ConfigMap) :
    ConfigMap.lookup k (ConfigMap.filterNew b o) =
      match ConfigMap.lookup k b with
      | some _ => Option.none
      | Option.none => ConfigMap.lookup k o := by
  induction o using configMap_induction with
  | hnil => cases ConfigMap.lookup k b <;> simp [ConfigMap.filterNew, ConfigMap.lookup]
  | hcons k2 v rest ih =>
    simp only [ConfigMap.filterNew]
    by_cases h : k2 = k
    · subst h
      cases hlb : ConfigMap.lookup k2 b with
      | none => simp [hlb, ConfigMap.lookup, ih]
      | some u => simp [hlb, ConfigMap.lookup, ih]
    · cases hlb2 : ConfigMap.lookup k2 b with
      | none => simp only [hlb2, Option.isSome_none, Bool.false_eq_true,
          if_false, ConfigMap.lookup, h, if_false]; exact ih
      | some u =>
        simp only [hlb2, Option.isSome_some, if_true, ConfigMap.lookup, h, if_false]
        simp only [hlb2] at ih
        exact ih

/-- Lookup in the result of a map-map merge: keys present in both sides get
the recursive merge, keys present on one side keep that side's value, and
no other key is present. -/
theorem lookup_deep_merge (k : String) (b o : ConfigMap) :
    ConfigMap.lookup k (ConfigMap.append (mergeBase b o) (ConfigMap.filterNew b o)) =
      match ConfigMap.lookup k b, ConfigMap.lookup k o with
      | some v, some w => some (deep_merge v w)
      | some v, Option.none => some v
      | Option.none, some w => some w
      | Option.none, Option.none => Option.none := by
  rw [lookup_append, lookup_mergeBase, lookup_filterNew]
  cases ConfigMap.lookup k b <;> cases ConfigMap.lookup k o <;> simp

/-- When the overlay is not a mapping, the merge result is the overlay in
every case (sequences included: a sequence overlay replaces the base). -/
theorem deep_merge_overlay_wins (v w : ConfigValue) (hw : w.isDict = false) :
    deep_merge v w = w := by
  cases v <;> cases w <;> simp_all [deep_merge, ConfigValue.isDict]

/-- Merging anything with a mapping overlay produces a mapping. -/
theorem deep_merge_into_dict (base : ConfigValue) (o : ConfigMap) :
    ∃ m : ConfigMap, deep_merge base (ConfigValue.dict o) = ConfigValue.dict m := by
  cases base <;> simp [deep_merge]

/-- The ASCII apostrophe used by the Python error messages. -/
def pyQuote : String := String.singleton (Char.ofNat 39)

/-- Model of Python `str.endswith` (the recognized extensions are ASCII). -/
def strEndsWith (s suf : String) : Bool := decide (suf.data <:+ s.data)

/-- Model of Python `str.startswith`. -/
def strStartsWith (s pre : String) : Bool := decide (pre.data <+: s.data)

/-- Lower-case of one character over the ASCII range, the range the
recognized extensions live in. -/
def asciiLowerChar (c : Char) : Char :=
  if 'A' ≤ c ∧ c ≤ 'Z' then Char.ofNat (c.toNat + 32) else c

/-- Model of Python `str.lower` over the ASCII range. -/
def strToLower (s : String) : String := String.mk (s.data.map asciiLowerChar)

/-- Model of POSIX `os.path.isabs`. -/
def path_isabs (p : String) : Bool := strStartsWith p "/"

/-- Model of POSIX `os.path.join` on two components: an absolute second
component replaces the first; otherwise the two are joined with a single
separator. -/
def path_join (a b : String) : String :=
  if path_isabs b then b
  else if a = "" then b
  else if strEndsWith a "/" then a ++ b
  else a ++ "/" ++ b

/-- Characters of the last `/`-separated component of a path. -/
def lastComponentAux (acc : List Char) : List Char → List Char
  | [] => acc
  | c :: rest =>
    if c = '/' then lastComponentAux [] rest else lastComponentAux (acc ++ [c]) rest

/-- Index of the last occurrence of a character. -/
def rfindIdx (c : Char) : List Char → Option Nat
  | [] => Option.none
  | x :: rest =>
    match rfindIdx c rest with
    | some i => some (i + 1)
    | Option.none => if x = c then some 0 else Option.none

/-- Model of `pathlib.PurePath.suffix`: the extension of the final path
component, dot included; empty when the final component has no dot past
position zero or ends with the dot. -/
def path_suffix (p : String) : String :=
  let name := lastComponentAux [] p.data
  match rfindIdx '.' name with
  | some i => if 0 < i ∧ i < name.length - 1 then String.mk (name.drop i) else ""
  | Option.none => ""

/-- The exceptions the loader can raise: `FileNotFoundError`, `ValueError`
(unsupported format), any exception propagated out of a decoding library,
and the `TypeError` that `tomllib.loads` raises when handed bytes instead
of text. -/
inductive PyErr where
  | fileNotFound : String → PyErr
  | valueError : String → PyErr
  | decodeError : String → PyErr
  | typeError : String → PyErr
deriving DecidableEq

/-- The exception class, message text set aside. -/
inductive PyErrKind where
  | fileNotFound : PyErrKind
  | valueError : PyErrKind
  | decodeError : PyErrKind
  | typeError : PyErrKind
deriving DecidableEq

def PyErr.kind : PyErr → PyErrKind
  | PyErr.fileNotFound _ => PyErrKind.fileNotFound
  | PyErr.valueError _ => PyErrKind.valueError
  | PyErr.decodeError _ => PyErrKind.decodeError
  | PyErr.typeError _ => PyErrKind.typeError

/-- First-match lookup in a generic association list keyed by strings. -/
def lookupAssoc {α : Type} (k : String) : List (String × α) → Option α
  | [] => Option.none
  | kv :: rest => if kv.1 = k then some kv.2 else lookupAssoc k rest

/-- The external world the loader runs against: the regular files (full
path to text content), the directories (full path to the names of their
immediate children, in filesystem enumeration order), the current working
directory, and the behaviour of the four external parsing libraries.  The
parser fields model the library calls `yaml.safe_load`, `json.load` /
`json.loads`, `tomllib.load` / `tomllib.loads` (which always yields a
mapping) and `configparser` (which yields sections, each with its option
items, the `DEFAULT` section excluded), each either returning a parsed
value or raising. -/
structure Env where
  files : List (String × String)
  dirsIndex : List (String × List String)
  cwd : String
  yaml_load : String → Except String ConfigValue
  json_load : String → Except String ConfigValue
  toml_load : String → Except String ConfigMap
  ini_parse : String → Except String (List (String × List (String × String)))

/-- Content of a regular file, when the path references one. -/
def fileContent (env : Env) (p : String) : Option String := lookupAssoc p env.files

/-- Model of `os.path.isfile`. -/
def os_path_isfile (env : Env) (p : String) : Bool := (fileContent env p).isSome

/-- Model of `os.path.isdir`. -/
def os_path_isdir (env : Env) (p : String) : Bool :=
  (lookupAssoc p env.dirsIndex).isSome

/-- Translation of `read_yaml_file` of `potato_util/io/_sync.py`: raise
`FileNotFoundError` when the path is not a regular file, otherwise parse the
content with `yaml.safe_load`, propagate a parse failure, and replace a
falsy parse result by the empty dict (`... or {}`). -/
def read_yaml_file (env : Env) (file_path : String) : Except PyErr ConfigValue :=
  match fileContent env file_path with
  | Option.none =>
    Except.error (PyErr.fileNotFound ("Not found " ++ pyQuote ++ file_path ++ pyQuote ++ " YAML file!"))
  | some content =>
    match env.yaml_load content with
    | Except.error msg => Except.error (PyErr.decodeError msg)
    | Except.ok d => Except.ok (pyOr d (ConfigValue.dict ConfigMap.nil))

/-- Translation of `read_json_file` of `potato_util/io/_sync.py`: same shape
as the YAML reader, the parse done by `json.load`. -/
def read_json_file (env : Env) (file_path : String) : Except PyErr ConfigValue :=
  match fileContent env file_path with
  | Option.none =>
    Except.error (PyErr.fileNotFound ("Not found " ++ pyQuote ++ file_path ++ pyQuote ++ " JSON file!"))
  | some content =>
    match env.json_load content with
    | Except.error msg => Except.error (PyErr.decodeError msg)
    | Except.ok d => Except.ok (pyOr d (ConfigValue.dict ConfigMap.nil))

/-- Translation of `read_toml_file` of `potato_util/io/_sync.py`: same shape,
the parse done by `tomllib.load`, whose result is always a mapping. -/
def read_toml_file (env : Env) (file_path : String) : Except PyErr ConfigValue :=
  match fileContent env file_path with
  | Option.none =>
    Except.error (PyErr.fileNotFound ("Not found " ++ pyQuote ++ file_path ++ pyQuote ++ " TOML file!"))
  | some content =>
    match env.toml_load content with
    | Except.error msg => Except.error (PyErr.decodeError msg)
    | Except.ok entries =>
      Except.ok (pyOr (ConfigValue.dict entries) (ConfigValue.dict ConfigMap.nil))

/-- Option items of one INI section as a mapping of string values. -/
def iniSectionItems : List (String × String) → ConfigMap
  | [] => ConfigMap.nil
  | kv :: rest => ConfigMap.cons kv.1 (ConfigValue.str kv.2) (iniSectionItems rest)

/-- The `for _section in sections: config[_section] = dict(items(_section))`
loop of `read_ini_file`: one top-level key per section. -/
def iniSections : List (String × List (String × String)) → ConfigMap
  | [] => ConfigMap.nil
  | s :: rest =>
    ConfigMap.cons s.1 (ConfigValue.dict (iniSectionItems s.2)) (iniSections rest)

/-- Translation of `read_ini_file` of `potato_util/io/_sync.py`: raise
`FileNotFoundError` when the path is not a regular file, otherwise feed
the file to `configparser` and build a dict of one nested dict per
section. -/
def read_ini_file (env : Env) (file_path : String) : Except PyErr ConfigValue :=
  match fileContent env file_path with
  | Option.none =>
    Except.error
      (PyErr.fileNotFound ("Not found " ++ pyQuote ++ file_path ++ pyQuote ++ " INI config file!"))
  | some content =>
    match env.ini_parse content with
    | Except.error msg => Except.error (PyErr.decodeError msg)
    | Except.ok sections => Except.ok (ConfigValue.dict (iniSections sections))

/-- Translation of `read_config_file` of `potato_util/io/_sync.py`:
`FileNotFoundError` for a missing file, then dispatch on the lower-cased
path suffix to the four readers, `ValueError` naming the (original-case)
suffix for any other extension. -/
def read_config_file (env : Env) (config_path : String) : Except PyErr ConfigValue :=
  if (os_path_isfile env config_path) = false then
    Except.error (PyErr.fileNotFound ("Not found " ++ pyQuote ++ config_path ++ pyQuote ++ " config file!"))
  else
    let lowSuffix := strToLower (path_suffix config_path)
    if lowSuffix = ".yaml" ∨ lowSuffix = ".yml" then read_yaml_file env config_path
    else if lowSuffix = ".json" then read_json_file env config_path
    else if lowSuffix = ".toml" then read_toml_file env config_path
    else if lowSuffix = ".ini" ∨ lowSuffix = ".cfg" then read_ini_file env config_path
    else
      Except.error
        (PyErr.valueError ("Unsupported config file format " ++ pyQuote ++ path_suffix config_path
          ++ pyQuote ++ " for " ++ pyQuote ++ config_path ++ pyQuote ++ "!"))

/-- Translation of `ConfigFileFormatEnum` of `potato_util.constants` (the
constants module is referenced by `_sync.py`; its members are the four
formats the loader dispatches on). -/
inductive ConfigFileFormatEnum where
  | YAML : ConfigFileFormatEnum
  | JSON : ConfigFileFormatEnum
  | TOML : ConfigFileFormatEnum
  | INI : ConfigFileFormatEnum
deriving DecidableEq

/-- Whether a child name matches the glob pattern `*.ext`: the name ends
with the extension and, per the `glob` module's rule, does not start with a
dot. -/
def glob_match (ext : String) (name : String) : Bool :=
  strEndsWith name ext && !(strStartsWith name ".")

/-- Model of `glob.glob(os.path.join(dir, "*" + ext))`: the matching
immediate children of the directory, joined back onto the directory path,
in filesystem enumeration order. -/
def glob_files (env : Env) (dir : String) (ext : String) : List String :=
  match lookupAssoc dir env.dirsIndex with
  | Option.none => []
  | some names => (names.filter (glob_match ext)).map (fun n => path_join dir n)

/-- The `if not os.path.isabs(...): os.path.join(os.getcwd(), ...)` step of
`read_all_configs`. -/
def resolve_dir (env : Env) (d : String) : String :=
  if path_isabs d then d else path_join env.cwd d

/-- The glob block of `read_all_configs` for one (already resolved,
existing) directory, in source order: `*.yaml`, `*.yml`, `*.json`,
`*.toml`, `*.ini`, `*.cfg`, each gated on its format being allowed. -/
def dir_config_paths (env : Env) (dir : String)
    (allowed_formats : List ConfigFileFormatEnum) : List String :=
  (if ConfigFileFormatEnum.YAML ∈ allowed_formats then
    glob_files env dir ".yaml" ++ glob_files env dir ".yml" else [])
  ++ (if ConfigFileFormatEnum.JSON ∈ allowed_formats then
    glob_files env dir ".json" else [])
  ++ (if ConfigFileFormatEnum.TOML ∈ allowed_formats then
    glob_files env dir ".toml" else [])
  ++ (if ConfigFileFormatEnum.INI ∈ allowed_formats then
    glob_files env dir ".ini" ++ glob_files env dir ".cfg" else [])

/-- The discovery loop of `read_all_configs`: resolve each directory
against the working directory, skip the ones that do not exist, and gather
the glob matches of every allowed format. -/
def collect_config_paths (env : Env) (configs_dir : List String)
    (allowed_formats : List ConfigFileFormatEnum) : List String :=
  match configs_dir with
  | [] => []
  | d :: rest =>
    (let dir := resolve_dir env d
     if os_path_isdir env dir then dir_config_paths env dir allowed_formats else [])
    ++ collect_config_paths env rest allowed_formats

/-- Lexicographic codepoint order on path strings: the order of Python's
`list.sort` on `str`, locale-independent. -/
def pathLe (a b : String) : Prop := a.data ≤ b.data

instance : DecidableRel pathLe :=
  fun a b => inferInstanceAs (Decidable (a.data ≤ b.data))

instance : IsTrans String pathLe := ⟨fun _ _ _ h1 h2 => le_trans h1 h2⟩

instance : IsTotal String pathLe := ⟨fun a b => le_total a.data b.data⟩

instance : IsAntisymm String pathLe :=
  ⟨fun _ _ h1 h2 => String.ext (le_antisymm h1 h2)⟩

/-- The `_file_paths.sort()` step: the discovered paths sorted ascending by
codepoint-lexicographic order (insertion sort is stable, like Python's
sort, so it computes the same list). -/
def sorted_config_paths (env : Env) (configs_dir : List String)
    (allowed_formats : List ConfigFileFormatEnum) : List String :=
  List.insertionSort pathLe (collect_config_paths env configs_dir allowed_formats)

/-- The merge loop of `read_all_configs`: read each file in order and fold
it into the accumulator with `deep_merge`; the first failure aborts the
whole loop. -/
def read_all_configs_from (env : Env) (paths : List String) (acc : ConfigValue) :
    Except PyErr ConfigValue :=
  match paths with
  | [] => Except.ok acc
  | p :: rest =>
    match read_config_file env p with
    | Except.error e => Except.error e
    | Except.ok d => read_all_configs_from env rest (deep_merge acc d)

/-- The default of the `allowed_formats` argument of `read_all_configs`:
YAML, JSON and TOML — INI is not in the default allow-list. -/
def default_allowed_formats : List ConfigFileFormatEnum :=
  [ConfigFileFormatEnum.YAML, ConfigFileFormatEnum.JSON, ConfigFileFormatEnum.TOML]

/-- Translation of `read_all_configs` of `potato_util/io/_sync.py`:
discover, sort, then fold the files through `read_config_file` and
`deep_merge` starting from the empty dict. -/
def read_all_configs (env : Env) (configs_dir : List String)
    (allowed_formats : List ConfigFileFormatEnum) : Except PyErr ConfigValue :=
  read_all_configs_from env (sorted_config_paths env configs_dir allowed_formats)
    (ConfigValue.dict ConfigMap.nil)

/-- Translation of `async_read_yaml_file` of `potato_util/io/_async.py`:
the file content is read first and handed to `yaml.safe_load`; otherwise
the same shape as the synchronous reader. -/
def async_read_yaml_file (env : Env) (file_path : String) : Except PyErr ConfigValue :=
  match fileContent env file_path with
  | Option.none =>
    Except.error (PyErr.fileNotFound ("Not found " ++ pyQuote ++ file_path ++ pyQuote ++ " YAML file!"))
  | some content =>
    match env.yaml_load content with
    | Except.error msg => Except.error (PyErr.decodeError msg)
    | Except.ok d => Except.ok (pyOr d (ConfigValue.dict ConfigMap.nil))

/-- Translation of `async_read_json_file` of `potato_util/io/_async.py`:
content read first, then `json.loads`. -/
def async_read_json_file (env : Env) (file_path : String) : Except PyErr ConfigValue :=
  match fileContent env file_path with
  | Option.none =>
    Except.error (PyErr.fileNotFound ("Not found " ++ pyQuote ++ file_path ++ pyQuote ++ " JSON file!"))
  | some content =>
    match env.json_load content with
    | Except.error msg => Except.error (PyErr.decodeError msg)
    | Except.ok d => Except.ok (pyOr d (ConfigValue.dict ConfigMap.nil))

/-- Translation of `async_read_toml_file` of `potato_util/io/_async.py`.
The module-level `_binary_toml` flag (set exactly when the Python runtime
is at least 3.11 and `tomllib` is in use) selects the branch: when set,
the file is opened in binary mode and the raw bytes are handed to
`tomllib.loads`, which demands a `str` and raises `TypeError` (from the
`str` arguments of `bytes.replace`: a bytes-like object is required, not
a str) on every input before any parsing happens; when clear, the text
content is parsed with `toml.loads`. -/
def async_read_toml_file (binary_toml : Bool) (env : Env) (file_path : String) :
    Except PyErr ConfigValue :=
  match fileContent env file_path with
  | Option.none =>
    Except.error (PyErr.fileNotFound ("Not found " ++ pyQuote ++ file_path ++ pyQuote ++ " TOML file!"))
  | some content =>
    if binary_toml then
      Except.error (PyErr.typeError
        ("a bytes-like object is required, not " ++ pyQuote ++ "str" ++ pyQuote))
    else
      match env.toml_load content with
      | Except.error msg => Except.error (PyErr.decodeError msg)
      | Except.ok entries =>
        Except.ok (pyOr (ConfigValue.dict entries) (ConfigValue.dict ConfigMap.nil))

/-- Translation of `async_read_ini_file` of `potato_util/io/_async.py`:
content read first, then `configparser.read_string` and the same
section-building loop as the synchronous reader. -/
def async_read_ini_file (env : Env) (file_path : String) : Except PyErr ConfigValue :=
  match fileContent env file_path with
  | Option.none =>
    Except.error
      (PyErr.fileNotFound ("Not found " ++ pyQuote ++ file_path ++ pyQuote ++ " INI config file!"))
  | some content =>
    match env.ini_parse content with
    | Except.error msg => Except.error (PyErr.decodeError msg)
    | Except.ok sections => Except.ok (ConfigValue.dict (iniSections sections))

/-- Translation of `async_read_config_file` of `potato_util/io/_async.py`:
same dispatch as the synchronous loader, the `_binary_toml` flag handed
down to the TOML reader; one textual difference of the source is that the
`ValueError` message interpolates the lower-cased suffix where the
synchronous code interpolates the original-case one. -/
def async_read_config_file (binary_toml : Bool) (env : Env) (config_path : String) :
    Except PyErr ConfigValue :=
  if (os_path_isfile env config_path) = false then
    Except.error (PyErr.fileNotFound ("Not found " ++ pyQuote ++ config_path ++ pyQuote ++ " config file!"))
  else
    let lowSuffix := strToLower (path_suffix config_path)
    if lowSuffix = ".yaml" ∨ lowSuffix = ".yml" then async_read_yaml_file env config_path
    else if lowSuffix = ".json" then async_read_json_file env config_path
    else if lowSuffix = ".toml" then async_read_toml_file binary_toml env config_path
    else if lowSuffix = ".ini" ∨ lowSuffix = ".cfg" then async_read_ini_file env config_path
    else
      Except.error
        (PyErr.valueError ("Unsupported config file format " ++ pyQuote
          ++ strToLower (path_suffix config_path) ++ pyQuote ++ " for " ++ pyQuote
          ++ config_path ++ pyQuote ++ "!"))

/-- Reflexivity of the behavioural equivalence used for the async/sync
comparison. -/
def exceptKindEquiv (a b : Except PyErr ConfigValue) : Prop :=
  match a, b with
  | Except.ok x, Except.ok y => x = y
  | Except.error e, Except.error f => e.kind = f.kind
  | _, _ => False

theorem exceptKindEquiv_refl (a : Except PyErr ConfigValue) : exceptKindEquiv a a := by
  cases a <;> simp [exceptKindEquiv]

/-- The six recognized extensions, lower-case. -/
def supported_suffixes : List String :=
  [".yaml", ".yml", ".json", ".toml", ".ini", ".cfg"]

/-- A concrete environment for witnesses: a directory of two YAML files
with a conflicting key (enumerated out of sorted order), a directory
holding one malformed YAML file, a mixed directory with a YAML and an INI
file, empty files of each format, and a file of unsupported extension.
The parser fields model the observable behaviour of the standard libraries
on exactly the contents present: `yaml.safe_load` of empty text is `None`
and of `k: 1` a one-key mapping, `json.loads` of empty text raises
`Expecting value ...` (empty input is not a valid JSON document),
`tomllib.loads` of empty text is the empty mapping, and `configparser` of
empty text has no sections. -/
def envDemo : Env :=
  Env.mk
    [("/configs/a.yaml", "k: 1"), ("/configs/b.yaml", "k: 2"),
     ("/configs/empty.yaml", ""), ("/configs/empty.json", ""),
     ("/configs/empty.toml", ""), ("/configs/empty.ini", ""),
     ("/configs/data.xyz", "?"),
     ("/bad/bad.yaml", ":bad:"),
     ("/mixed/c.yaml", "k: 1"), ("/mixed/n.ini", "[sec]\nk = v\n\n[blank]"),
     ("/twin/a.yaml", "k: 1"), ("/twin/b.yaml", "k: 2")]
    [("/configs", ["b.yaml", "a.yaml", "empty.yaml", "empty.json", "empty.toml",
                   "empty.ini", "data.xyz"]),
     ("/bad", ["bad.yaml"]),
     ("/mixed", ["c.yaml", "n.ini"]),
     ("/twin", ["b.yaml", "a.yaml"])]
    "/app"
    (fun s =>
      if s = "" then Except.ok ConfigValue.none
      else if s = "k: 1" then
        Except.ok (ConfigValue.dict (ConfigMap.cons "k" (ConfigValue.int 1) ConfigMap.nil))
      else if s = "k: 2" then
        Except.ok (ConfigValue.dict (ConfigMap.cons "k" (ConfigValue.int 2) ConfigMap.nil))
      else Except.error "mapping values are not allowed here")
    (fun _ => Except.error "Expecting value: line 1 column 1 (char 0)")
    (fun _ => Except.ok ConfigMap.nil)
    (fun s =>
      if s = "" then Except.ok []
      else Except.ok [("sec", [("k", "v")]), ("blank", [])])

/-- C2: `deep_merge(base, overlay)` satisfies, recursively: on two mappings
it is the mapping over the union of the keys with `deep_merge(base[k],
overlay[k])` on the shared keys and the single side's value on one-sided
keys; on two sequences it is exactly the overlay; in every other case
(scalar on either side, type mismatch, or null overlay) it is exactly the
overlay. -/
theorem c2_deep_merge_contract :
    (∀ b o : ConfigMap, ∃ m : ConfigMap,
      deep_merge (ConfigValue.dict b) (ConfigValue.dict o) = ConfigValue.dict m ∧
      ∀ k, ConfigMap.lookup k m =
        match ConfigMap.lookup k b, ConfigMap.lookup k o with
        | some v, some w => some (deep_merge v w)
        | some v, Option.none => some v
        | Option.none, some w => some w
        | Option.none, Option.none => Option.none) ∧
    (∀ xs ys : ConfigSeq,
      deep_merge (ConfigValue.list xs) (ConfigValue.list ys) = ConfigValue.list ys) ∧
    (∀ base overlay : ConfigValue,
      (base.isDict && overlay.isDict) = false →
      (base.isList && overlay.isList) = false →
      deep_merge base overlay = overlay) := by
  refine ⟨fun b o => ⟨ConfigMap.append (mergeBase b o) (ConfigMap.filterNew b o), ?_, ?_⟩,
    fun xs ys => ?_, fun base overlay h1 h2 => ?_⟩
  · simp [deep_merge]
  · intro k; exact lookup_deep_merge k b o
  · simp [deep_merge]
  · cases base <;> cases overlay <;>
      simp_all [deep_merge, ConfigValue.isDict, ConfigValue.isList]

theorem c2_deep_merge_contract_witness :
    ((ConfigValue.int 1).isDict && (ConfigValue.str "x").isDict) = false ∧
    ((ConfigValue.int 1).isList && (ConfigValue.str "x").isList) = false ∧
    deep_merge (ConfigValue.int 1) (ConfigValue.str "x") = ConfigValue.str "x" :=
  ⟨by decide, by decide,
    c2_deep_merge_contract.2.2 (ConfigValue.int 1) (ConfigValue.str "x")
      (by decide) (by decide)⟩

/-- C1 counterexample: on the existing, empty file `/configs/empty.json`,
`read_json_file` does not return the empty mapping; it propagates the JSON
decoder's failure, because empty content is not a valid JSON document
(`json.load` raises `Expecting value ...` before the `or` fallback is ever
reached). -/
theorem c1_counterexample :
    read_json_file envDemo "/configs/empty.json" =
      Except.error (PyErr.decodeError "Expecting value: line 1 column 1 (char 0)") ∧
    ¬ read_json_file envDemo "/configs/empty.json" =
        Except.ok (ConfigValue.dict ConfigMap.nil) :=
  ⟨rfl, fun h => nomatch h⟩

/-- C1 amended: on an existing empty file, `read_yaml_file`,
`read_toml_file` and `read_ini_file` return the empty mapping (given the
standard behaviour of their parsing libraries on empty input), while
`read_json_file` propagates the JSON decoder's failure, since empty content
is not a valid JSON document. -/
theorem c1_empty_file_amended (env : Env) (p : String) (msg : String)
    (hc : fileContent env p = some "")
    (hy : env.yaml_load "" = Except.ok ConfigValue.none)
    (ht : env.toml_load "" = Except.ok ConfigMap.nil)
    (hi : env.ini_parse "" = Except.ok [])
    (hj : env.json_load "" = Except.error msg) :
    read_yaml_file env p = Except.ok (ConfigValue.dict ConfigMap.nil) ∧
    read_toml_file env p = Except.ok (ConfigValue.dict ConfigMap.nil) ∧
    read_ini_file env p = Except.ok (ConfigValue.dict ConfigMap.nil) ∧
    read_json_file env p = Except.error (PyErr.decodeError msg) := by
  refine ⟨?_, ?_, ?_, ?_⟩ <;>
    simp [read_yaml_file, read_toml_file, read_ini_file, read_json_file, hc, hy, ht, hi,
      hj, pyOr, pyTruthy, iniSections]

theorem c1_empty_file_amended_witness :
    fileContent envDemo "/configs/empty.yaml" = some "" ∧
    (read_yaml_file envDemo "/configs/empty.yaml" =
        Except.ok (ConfigValue.dict ConfigMap.nil) ∧
      read_toml_file envDemo "/configs/empty.yaml" =
        Except.ok (ConfigValue.dict ConfigMap.nil) ∧
      read_ini_file envDemo "/configs/empty.yaml" =
        Except.ok (ConfigValue.dict ConfigMap.nil) ∧
      read_json_file envDemo "/configs/empty.yaml" =
        Except.error (PyErr.decodeError "Expecting value: line 1 column 1 (char 0)")) :=
  ⟨rfl, c1_empty_file_amended envDemo "/configs/empty.yaml"
    "Expecting value: line 1 column 1 (char 0)" rfl rfl rfl rfl rfl⟩

theorem read_yaml_file_no_fnf (env : Env) (p : String)
    (h : os_path_isfile env p = true) :
    ∀ msg, read_yaml_file env p ≠ Except.error (PyErr.fileNotFound msg) := by
  intro msg
  unfold read_yaml_file
  unfold os_path_isfile at h
  cases hc : fileContent env p with
  | none => simp [hc] at h
  | some content => cases hy : env.yaml_load content <;> simp [hy]

theorem read_json_file_no_fnf (env : Env) (p : String)
    (h : os_path_isfile env p = true) :
    ∀ msg, read_json_file env p ≠ Except.error (PyErr.fileNotFound msg) := by
  intro msg
  unfold read_json_file
  unfold os_path_isfile at h
  cases hc : fileContent env p with
  | none => simp [hc] at h
  | some content => cases hj : env.json_load content <;> simp [hj]

theorem read_toml_file_no_fnf (env : Env) (p : String)
    (h : os_path_isfile env p = true) :
    ∀ msg, read_toml_file env p ≠ Except.error (PyErr.fileNotFound msg) := by
  intro msg
  unfold read_toml_file
  unfold os_path_isfile at h
  cases hc : fileContent env p with
  | none => simp [hc] at h
  | some content => cases ht : env.toml_load content <;> simp [ht]

theorem read_ini_file_no_fnf (env : Env) (p : String)
    (h : os_path_isfile env p = true) :
    ∀ msg, read_ini_file env p ≠ Except.error (PyErr.fileNotFound msg) := by
  intro msg
  unfold read_ini_file
  unfold os_path_isfile at h
  cases hc : fileContent env p with
  | none => simp [hc] at h
  | some content => cases hi : env.ini_parse content <;> simp [hi]

/-- C4: `read_config_file` raises `FileNotFoundError` exactly when the path
is not an existing regular file; on an existing file whose lower-cased
extension is none of the six recognized ones it raises `ValueError` whose
message interpolates the offending (original-case) extension; otherwise it
delegates to the decoder matching the extension. -/
theorem c4_read_config_file_dispatch (env : Env) (p : String) :
    (os_path_isfile env p = false →
      read_config_file env p =
        Except.error (PyErr.fileNotFound
          ("Not found " ++ pyQuote ++ p ++ pyQuote ++ " config file!"))) ∧
    (os_path_isfile env p = true →
      (∀ msg, read_config_file env p ≠ Except.error (PyErr.fileNotFound msg)) ∧
      (strToLower (path_suffix p) ∉ supported_suffixes →
        read_config_file env p =
          Except.error (PyErr.valueError
            ("Unsupported config file format " ++ pyQuote ++ path_suffix p ++ pyQuote
              ++ " for " ++ pyQuote ++ p ++ pyQuote ++ "!"))) ∧
      (strToLower (path_suffix p) = ".yaml" ∨ strToLower (path_suffix p) = ".yml" →
        read_config_file env p = read_yaml_file env p) ∧
      (strToLower (path_suffix p) = ".json" →
        read_config_file env p = read_json_file env p) ∧
      (strToLower (path_suffix p) = ".toml" →
        read_config_file env p = read_toml_file env p) ∧
      (strToLower (path_suffix p) = ".ini" ∨ strToLower (path_suffix p) = ".cfg" →
        read_config_file env p = read_ini_file env p)) := by
  constructor
  · intro hf
    unfold read_config_file
    simp [hf]
  · intro hf
    have hfne : ¬ (os_path_isfile env p = false) := by simp [hf]
    refine ⟨?_, ?_, ?_, ?_, ?_, ?_⟩
    · intro msg
      unfold read_config_file
      rw [if_neg hfne]
      by_cases h1 : strToLower (path_suffix p) = ".yaml" ∨ strToLower (path_suffix p) = ".yml"
      · rw [if_pos h1]; exact read_yaml_file_no_fnf env p hf msg
      · rw [if_neg h1]
        by_cases h2 : strToLower (path_suffix p) = ".json"
        · rw [if_pos h2]; exact read_json_file_no_fnf env p hf msg
        · rw [if_neg h2]
          by_cases h3 : strToLower (path_suffix p) = ".toml"
          · rw [if_pos h3]; exact read_toml_file_no_fnf env p hf msg
          · rw [if_neg h3]
            by_cases h4 : strToLower (path_suffix p) = ".ini" ∨ strToLower (path_suffix p) = ".cfg"
            · rw [if_pos h4]; exact read_ini_file_no_fnf env p hf msg
            · rw [if_neg h4]; simp
    · intro hns
      simp only [supported_suffixes, List.mem_cons, List.not_mem_nil, or_false] at hns
      push_neg at hns
      obtain ⟨n1, n2, n3, n4, n5, n6⟩ := hns
      have h1 : ¬ (strToLower (path_suffix p) = ".yaml" ∨ strToLower (path_suffix p) = ".yml") := by
        simp [n1, n2]
      have h4 : ¬ (strToLower (path_suffix p) = ".ini" ∨ strToLower (path_suffix p) = ".cfg") := by
        simp [n5, n6]
      unfold read_config_file
      rw [if_neg hfne, if_neg h1, if_neg n3, if_neg n4, if_neg h4]
    · intro h1
      unfold read_config_file
      rw [if_neg hfne, if_pos h1]
    · intro h2
      have h1 : ¬ (strToLower (path_suffix p) = ".yaml" ∨ strToLower (path_suffix p) = ".yml") := by
        rw [h2]; decide
      unfold read_config_file
      rw [if_neg hfne, if_neg h1, if_pos h2]
    · intro h3
      have h1 : ¬ (strToLower (path_suffix p) = ".yaml" ∨ strToLower (path_suffix p) = ".yml") := by
        rw [h3]; decide
      have h2 : ¬ strToLower (path_suffix p) = ".json" := by rw [h3]; decide
      unfold read_config_file
      rw [if_neg hfne, if_neg h1, if_neg h2, if_pos h3]
    · intro h4
      have h1 : ¬ (strToLower (path_suffix p) = ".yaml" ∨ strToLower (path_suffix p) = ".yml") := by
        rcases h4 with h | h <;> rw [h] <;> decide
      have h2 : ¬ strToLower (path_suffix p) = ".json" := by
        rcases h4 with h | h <;> rw [h] <;> decide
      have h3 : ¬ strToLower (path_suffix p) = ".toml" := by
        rcases h4 with h | h <;> rw [h] <;> decide
      unfold read_config_file
      rw [if_neg hfne, if_neg h1, if_neg h2, if_neg h3, if_pos h4]

theorem c4_read_config_file_dispatch_witness :
    (os_path_isfile envDemo "/configs/missing.yaml" = false ∧
      read_config_file envDemo "/configs/missing.yaml" =
        Except.error (PyErr.fileNotFound
          ("Not found " ++ pyQuote ++ "/configs/missing.yaml" ++ pyQuote ++ " config file!"))) ∧
    (os_path_isfile envDemo "/configs/data.xyz" = true ∧
      read_config_file envDemo "/configs/data.xyz" =
        Except.error (PyErr.valueError
          ("Unsupported config file format " ++ pyQuote ++ ".xyz" ++ pyQuote
            ++ " for " ++ pyQuote ++ "/configs/data.xyz" ++ pyQuote ++ "!"))) ∧
    (os_path_isfile envDemo "/configs/a.yaml" = true ∧
      read_config_file envDemo "/configs/a.yaml" = read_yaml_file envDemo "/configs/a.yaml") :=
  ⟨⟨by decide, (c4_read_config_file_dispatch envDemo "/configs/missing.yaml").1 (by decide)⟩,
   ⟨by decide, by
      have h := ((c4_read_config_file_dispatch envDemo "/configs/data.xyz").2
        (by decide)).2.1 (by decide)
      rw [h]
      have hsuf : path_suffix "/configs/data.xyz" = ".xyz" := by decide
      rw [hsuf]⟩,
   ⟨by decide, ((c4_read_config_file_dispatch envDemo "/configs/a.yaml").2
      (by decide)).2.2.1 (Or.inl (by decide))⟩⟩

theorem lookup_iniSections (k : String) (sections : List (String × List (String × String)))
    (v : ConfigValue) (h : ConfigMap.lookup k (iniSections sections) = some v) :
    ∃ items, v = ConfigValue.dict (iniSectionItems items) := by
  induction sections with
  | nil => simp [iniSections, ConfigMap.lookup] at h
  | cons s rest ih =>
    simp only [iniSections, ConfigMap.lookup] at h
    by_cases hk : s.1 = k
    · rw [if_pos hk] at h
      exact ⟨s.2, (Option.some_injective _ h).symm⟩
    · rw [if_neg hk] at h
      exact ih h

theorem lookup_iniSectionItems (k : String) (items : List (String × String))
    (v : ConfigValue) (h : ConfigMap.lookup k (iniSectionItems items) = some v) :
    ∃ s, v = ConfigValue.str s := by
  induction items with
  | nil => simp [iniSectionItems, ConfigMap.lookup] at h
  | cons kv rest ih =>
    simp only [iniSectionItems, ConfigMap.lookup] at h
    by_cases hk : kv.1 = k
    · rw [if_pos hk] at h
      exact ⟨kv.2, (Option.some_injective _ h).symm⟩
    · rw [if_neg hk] at h
      exact ih h

/-- C8: a successful `read_ini_file` result is a two-level mapping: the
parsed sections become the top-level keys, each holding the mapping of its
option items as string values; a section with zero items holds the empty
mapping, and no top-level key holds a scalar. -/
theorem c8_ini_two_level (env : Env) (p : String) (c : ConfigValue)
    (h : read_ini_file env p = Except.ok c) :
    ∃ content sections, fileContent env p = some content ∧
      env.ini_parse content = Except.ok sections ∧
      c = ConfigValue.dict (iniSections sections) ∧
      (∀ k v, ConfigMap.lookup k (iniSections sections) = some v →
        (∃ items, v = ConfigValue.dict (iniSectionItems items)) ∧ v.isDict = true) := by
  unfold read_ini_file at h
  cases hc : fileContent env p with
  | none => rw [hc] at h; cases h
  | some content =>
    rw [hc] at h
    simp only [] at h
    cases hi : env.ini_parse content with
    | error msg => rw [hi] at h; cases h
    | ok sections =>
      rw [hi] at h
      have hc2 : c = ConfigValue.dict (iniSections sections) := by
        cases h; rfl
      refine ⟨content, sections, rfl, hi, hc2, ?_⟩
      intro k v hv
      obtain ⟨items, hitems⟩ := lookup_iniSections k sections v hv
      exact ⟨⟨items, hitems⟩, by rw [hitems]; rfl⟩

theorem c8_ini_two_level_witness :
    read_ini_file envDemo "/mixed/n.ini" =
      Except.ok (ConfigValue.dict
        (ConfigMap.cons "sec"
          (ConfigValue.dict (ConfigMap.cons "k" (ConfigValue.str "v") ConfigMap.nil))
          (ConfigMap.cons "blank" (ConfigValue.dict ConfigMap.nil) ConfigMap.nil))) ∧
    (∃ content sections, fileContent envDemo "/mixed/n.ini" = some content ∧
      envDemo.ini_parse content = Except.ok sections ∧
      ConfigValue.dict
          (ConfigMap.cons "sec"
            (ConfigValue.dict (ConfigMap.cons "k" (ConfigValue.str "v") ConfigMap.nil))
            (ConfigMap.cons "blank" (ConfigValue.dict ConfigMap.nil) ConfigMap.nil)) =
        ConfigValue.dict (iniSections sections) ∧
      (∀ k v, ConfigMap.lookup k (iniSections sections) = some v →
        (∃ items, v = ConfigValue.dict (iniSectionItems items)) ∧ v.isDict = true)) :=
  ⟨rfl, c8_ini_two_level envDemo "/mixed/n.ini" _ rfl⟩

/-- On the text branch (`_binary_toml` clear, Python before 3.11) the
asynchronous loader is behaviourally equivalent to the synchronous one:
same dispatch, same mapping on success, same exception class on failure. -/
theorem async_sync_equiv_text_mode (env : Env) (p : String) :
    exceptKindEquiv (read_config_file env p) (async_read_config_file false env p) := by
  unfold read_config_file async_read_config_file
  by_cases hf : os_path_isfile env p = false
  · rw [if_pos hf, if_pos hf]
    simp [exceptKindEquiv, PyErr.kind]
  · rw [if_neg hf, if_neg hf]
    by_cases h1 : strToLower (path_suffix p) = ".yaml" ∨ strToLower (path_suffix p) = ".yml"
    · rw [if_pos h1, if_pos h1]
      have he : async_read_yaml_file env p = read_yaml_file env p := rfl
      rw [he]
      exact exceptKindEquiv_refl _
    · rw [if_neg h1, if_neg h1]
      by_cases h2 : strToLower (path_suffix p) = ".json"
      · rw [if_pos h2, if_pos h2]
        have he : async_read_json_file env p = read_json_file env p := rfl
        rw [he]
        exact exceptKindEquiv_refl _
      · rw [if_neg h2, if_neg h2]
        by_cases h3 : strToLower (path_suffix p) = ".toml"
        · rw [if_pos h3, if_pos h3]
          have he : async_read_toml_file false env p = read_toml_file env p := rfl
          rw [he]
          exact exceptKindEquiv_refl _
        · rw [if_neg h3, if_neg h3]
          by_cases h4 : strToLower (path_suffix p) = ".ini" ∨ strToLower (path_suffix p) = ".cfg"
          · rw [if_pos h4, if_pos h4]
            have he : async_read_ini_file env p = read_ini_file env p := rfl
            rw [he]
            exact exceptKindEquiv_refl _
          · rw [if_neg h4, if_neg h4]
            simp [exceptKindEquiv, PyErr.kind]

/-- C10: the claimed sync/async equivalence fails on the live
`_binary_toml` branch (Python at least 3.11): for an existing TOML file
whose content parses, the synchronous loader returns the parsed mapping
while the asynchronous one raises `TypeError` — the raw bytes it reads are
handed to `tomllib.loads`, which requires text — before any parsing; on
the pre-3.11 text branch the two loaders are behaviourally equivalent. -/
theorem c10_async_toml_divergence (env : Env) (p content : String)
    (entries : ConfigMap)
    (hc : fileContent env p = some content)
    (hsuf : strToLower (path_suffix p) = ".toml")
    (hparse : env.toml_load content = Except.ok entries) :
    read_config_file env p =
      Except.ok (pyOr (ConfigValue.dict entries) (ConfigValue.dict ConfigMap.nil)) ∧
    async_read_config_file true env p =
      Except.error (PyErr.typeError
        ("a bytes-like object is required, not " ++ pyQuote ++ "str" ++ pyQuote)) ∧
    ¬ exceptKindEquiv (read_config_file env p) (async_read_config_file true env p) ∧
    exceptKindEquiv (read_config_file env p) (async_read_config_file false env p) := by
  have hf : os_path_isfile env p = true := by
    unfold os_path_isfile
    rw [hc]
    rfl
  have hfne : ¬ (os_path_isfile env p = false) := by simp [hf]
  have h1 : ¬ (strToLower (path_suffix p) = ".yaml" ∨ strToLower (path_suffix p) = ".yml") := by
    rw [hsuf]; decide
  have h2 : ¬ strToLower (path_suffix p) = ".json" := by rw [hsuf]; decide
  have hsync : read_config_file env p =
      Except.ok (pyOr (ConfigValue.dict entries) (ConfigValue.dict ConfigMap.nil)) := by
    unfold read_config_file
    rw [if_neg hfne, if_neg h1, if_neg h2, if_pos hsuf]
    unfold read_toml_file
    rw [hc]
    simp only []
    rw [hparse]
  have hasync : async_read_config_file true env p =
      Except.error (PyErr.typeError
        ("a bytes-like object is required, not " ++ pyQuote ++ "str" ++ pyQuote)) := by
    unfold async_read_config_file
    rw [if_neg hfne, if_neg h1, if_neg h2, if_pos hsuf]
    unfold async_read_toml_file
    rw [hc]
    rfl
  refine ⟨hsync, hasync, ?_, async_sync_equiv_text_mode env p⟩
  rw [hsync, hasync]
  simp [exceptKindEquiv]

theorem c10_async_toml_divergence_witness :
    fileContent envDemo "/configs/empty.toml" = some "" ∧
    strToLower (path_suffix "/configs/empty.toml") = ".toml" ∧
    envDemo.toml_load "" = Except.ok ConfigMap.nil ∧
    (read_config_file envDemo "/configs/empty.toml" =
        Except.ok (pyOr (ConfigValue.dict ConfigMap.nil) (ConfigValue.dict ConfigMap.nil)) ∧
      async_read_config_file true envDemo "/configs/empty.toml" =
        Except.error (PyErr.typeError
          ("a bytes-like object is required, not " ++ pyQuote ++ "str" ++ pyQuote)) ∧
      ¬ exceptKindEquiv (read_config_file envDemo "/configs/empty.toml")
          (async_read_config_file true envDemo "/configs/empty.toml") ∧
      exceptKindEquiv (read_config_file envDemo "/configs/empty.toml")
          (async_read_config_file false envDemo "/configs/empty.toml")) :=
  ⟨rfl, by decide, rfl,
    c10_async_toml_divergence envDemo "/configs/empty.toml" "" ConfigMap.nil
      rfl (by decide) rfl⟩

theorem read_all_configs_from_err (env : Env) :
    ∀ (paths : List String) (acc : ConfigValue) (p : String) (e : PyErr),
      p ∈ paths → read_config_file env p = Except.error e →
      ∃ e2, read_all_configs_from env paths acc = Except.error e2 := by
  intro paths
  induction paths with
  | nil => intro acc p e hp _; exact absurd hp (List.not_mem_nil p)
  | cons q rest ih =>
    intro acc p e hp hr
    unfold read_all_configs_from
    cases hq : read_config_file env q with
    | error e3 => exact ⟨e3, rfl⟩
    | ok d =>
      rcases List.mem_cons.mp hp with rfl | hmem
      · rw [hq] at hr; cases hr
      · exact ih (deep_merge acc d) p e hmem hr

theorem read_all_configs_from_first_err (env : Env) :
    ∀ (pre : List String) (p : String) (post : List String) (acc : ConfigValue) (e : PyErr),
      (∀ q ∈ pre, ∃ d, read_config_file env q = Except.ok d) →
      read_config_file env p = Except.error e →
      read_all_configs_from env (pre ++ p :: post) acc = Except.error e := by
  intro pre
  induction pre with
  | nil =>
    intro p post acc e _ hp
    rw [List.nil_append]
    unfold read_all_configs_from
    rw [hp]
  | cons q rest ih =>
    intro p post acc e hpre hp
    rw [List.cons_append]
    unfold read_all_configs_from
    obtain ⟨d, hd⟩ := hpre q (List.mem_cons_self q rest)
    rw [hd]
    exact ih p post (deep_merge acc d) e
      (fun r hr => hpre r (List.mem_cons_of_mem q hr)) hp

/-- C3: if loading any file of the discovered, sorted list fails, the whole
aggregation aborts with an error (no partial merged result is returned);
when the failing file is the first failing one, the error propagated is
exactly its error. -/
theorem c3_failure_aborts (env : Env) (configs_dir : List String)
    (allowed_formats : List ConfigFileFormatEnum) (p : String) (e : PyErr)
    (hp : p ∈ sorted_config_paths env configs_dir allowed_formats)
    (he : read_config_file env p = Except.error e) :
    (¬ ∃ m, read_all_configs env configs_dir allowed_formats = Except.ok m) ∧
    (∀ pre post,
      sorted_config_paths env configs_dir allowed_formats = pre ++ p :: post →
      (∀ q ∈ pre, ∃ d, read_config_file env q = Except.ok d) →
      read_all_configs env configs_dir allowed_formats = Except.error e) := by
  constructor
  · rintro ⟨m, hm⟩
    obtain ⟨e2, he2⟩ := read_all_configs_from_err env
      (sorted_config_paths env configs_dir allowed_formats)
      (ConfigValue.dict ConfigMap.nil) p e hp he
    unfold read_all_configs at hm
    rw [he2] at hm
    cases hm
  · intro pre post hsplit hpre
    unfold read_all_configs
    rw [hsplit]
    exact read_all_configs_from_first_err env pre p post (ConfigValue.dict ConfigMap.nil)
      e hpre he

theorem c3_failure_aborts_witness :
    "/bad/bad.yaml" ∈ sorted_config_paths envDemo ["/bad"] default_allowed_formats ∧
    read_config_file envDemo "/bad/bad.yaml" =
      Except.error (PyErr.decodeError "mapping values are not allowed here") ∧
    ¬ ∃ m, read_all_configs envDemo ["/bad"] default_allowed_formats = Except.ok m :=
  ⟨by decide, rfl,
    (c3_failure_aborts envDemo ["/bad"] default_allowed_formats "/bad/bad.yaml"
      (PyErr.decodeError "mapping values are not allowed here") (by decide) rfl).1⟩

theorem collect_config_paths_nil (env : Env) (allowed_formats : List ConfigFileFormatEnum) :
    ∀ configs_dir : List String,
      (∀ d ∈ configs_dir, os_path_isdir env (resolve_dir env d) = false) →
      collect_config_paths env configs_dir allowed_formats = [] := by
  intro configs_dir
  induction configs_dir with
  | nil => intro _; rfl
  | cons d rest ih =>
    intro h
    unfold collect_config_paths
    rw [ih (fun r hr => h r (List.mem_cons_of_mem d hr))]
    have hd := h d (List.mem_cons_self d rest)
    simp [hd]

/-- C6: a directory input that does not exist on disk contributes no files
and is not an error; aggregating over only non-existent directories returns
the empty mapping. -/
theorem c6_missing_dirs_ok (env : Env) (configs_dir : List String)
    (allowed_formats : List ConfigFileFormatEnum)
    (h : ∀ d ∈ configs_dir, os_path_isdir env (resolve_dir env d) = false) :
    sorted_config_paths env configs_dir allowed_formats = [] ∧
    read_all_configs env configs_dir allowed_formats =
      Except.ok (ConfigValue.dict ConfigMap.nil) := by
  have hc : collect_config_paths env configs_dir allowed_formats = [] :=
    collect_config_paths_nil env allowed_formats configs_dir h
  have hs : sorted_config_paths env configs_dir allowed_formats = [] := by
    unfold sorted_config_paths
    rw [hc]
    rfl
  refine ⟨hs, ?_⟩
  unfold read_all_configs
  rw [hs]
  rfl

theorem c6_missing_dirs_ok_witness :
    (∀ d ∈ ["/nope", "relative"],
      os_path_isdir envDemo (resolve_dir envDemo d) = false) ∧
    read_all_configs envDemo ["/nope", "relative"] default_allowed_formats =
      Except.ok (ConfigValue.dict ConfigMap.nil) :=
  ⟨by decide,
    (c6_missing_dirs_ok envDemo ["/nope", "relative"] default_allowed_formats
      (by decide)).2⟩

/-- The glob extensions active for an allow-list, in the order the source
tries them. -/
def active_exts (allowed_formats : List ConfigFileFormatEnum) : List String :=
  (if ConfigFileFormatEnum.YAML ∈ allowed_formats then [".yaml", ".yml"] else [])
  ++ (if ConfigFileFormatEnum.JSON ∈ allowed_formats then [".json"] else [])
  ++ (if ConfigFileFormatEnum.TOML ∈ allowed_formats then [".toml"] else [])
  ++ (if ConfigFileFormatEnum.INI ∈ allowed_formats then [".ini", ".cfg"] else [])

theorem mem_dir_config_paths (env : Env) (dir : String)
    (allowed_formats : List ConfigFileFormatEnum) (p : String) :
    p ∈ dir_config_paths env dir allowed_formats ↔
      ∃ ext, ext ∈ active_exts allowed_formats ∧ p ∈ glob_files env dir ext := by
  unfold dir_config_paths active_exts
  by_cases hY : ConfigFileFormatEnum.YAML ∈ allowed_formats <;>
    by_cases hJ : ConfigFileFormatEnum.JSON ∈ allowed_formats <;>
      by_cases hT : ConfigFileFormatEnum.TOML ∈ allowed_formats <;>
        by_cases hI : ConfigFileFormatEnum.INI ∈ allowed_formats <;>
          simp [hY, hJ, hT, hI, List.mem_append, or_assoc]

theorem mem_collect_config_paths (env : Env)
    (allowed_formats : List ConfigFileFormatEnum) :
    ∀ (configs_dir : List String) (p : String),
      p ∈ collect_config_paths env configs_dir allowed_formats ↔
        ∃ d, d ∈ configs_dir ∧ os_path_isdir env (resolve_dir env d) = true ∧
          p ∈ dir_config_paths env (resolve_dir env d) allowed_formats := by
  intro configs_dir
  induction configs_dir with
  | nil => intro p; simp [collect_config_paths]
  | cons d rest ih =>
    intro p
    unfold collect_config_paths
    rw [List.mem_append]
    constructor
    · intro h
      rcases h with h | h
      · by_cases hd : os_path_isdir env (resolve_dir env d) = true
        · rw [if_pos hd] at h
          exact ⟨d, List.mem_cons_self d rest, hd, h⟩
        · rw [if_neg hd] at h
          exact absurd h (List.not_mem_nil p)
      · obtain ⟨d2, hd2, hdir, hmem⟩ := (ih p).mp h
        exact ⟨d2, List.mem_cons_of_mem d hd2, hdir, hmem⟩
    · rintro ⟨d2, hd2, hdir, hmem⟩
      rcases List.mem_cons.mp hd2 with rfl | hd2r
      · left; rw [if_pos hdir]; exact hmem
      · right; exact (ih p).mpr ⟨d2, hd2r, hdir, hmem⟩

theorem mem_glob_files (env : Env) (dir ext p : String) :
    p ∈ glob_files env dir ext ↔
      ∃ names n, lookupAssoc dir env.dirsIndex = some names ∧ n ∈ names ∧
        glob_match ext n = true ∧ p = path_join dir n := by
  unfold glob_files
  cases h : lookupAssoc dir env.dirsIndex with
  | none => simp [h]
  | some names =>
    simp only [h, List.mem_map, List.mem_filter, Option.some_inj]
    constructor
    · rintro ⟨n, ⟨hn, hm⟩, hp⟩
      exact ⟨names, n, rfl, hn, hm, hp.symm⟩
    · rintro ⟨names2, n, hnames, hn, hm, hp⟩
      cases hnames
      exact ⟨n, ⟨hn, hm⟩, hp.symm⟩

theorem strEndsWith_path_join (dir n ext : String)
    (h : strEndsWith n ext = true) : strEndsWith (path_join dir n) ext = true := by
  unfold strEndsWith at h ⊢
  rw [decide_eq_true_eq] at h ⊢
  unfold path_join
  by_cases h1 : path_isabs n = true
  · rw [if_pos h1]; exact h
  · rw [if_neg h1]
    by_cases h2 : dir = ""
    · rw [if_pos h2]; exact h
    · rw [if_neg h2]
      by_cases h3 : strEndsWith dir "/" = true
      · rw [if_pos h3, String.data_append]
        exact h.trans (List.suffix_append dir.data n.data)
      · rw [if_neg h3, String.data_append, String.data_append]
        rw [List.append_assoc]
        exact h.trans ((List.suffix_append "/".data n.data).trans
          (List.suffix_append dir.data ("/".data ++ n.data)))

theorem not_ends_both (s e1 e2 : String)
    (h1 : strEndsWith s e1 = true) (h2 : strEndsWith s e2 = true)
    (hn1 : ¬ e1.data <:+ e2.data) (hn2 : ¬ e2.data <:+ e1.data) : False := by
  unfold strEndsWith at h1 h2
  rw [decide_eq_true_eq] at h1 h2
  rcases List.suffix_or_suffix_of_suffix h1 h2 with h | h <;> contradiction

theorem sorted_mem_iff (env : Env) (configs_dir : List String)
    (allowed_formats : List ConfigFileFormatEnum) (p : String) :
    p ∈ sorted_config_paths env configs_dir allowed_formats ↔
      p ∈ collect_config_paths env configs_dir allowed_formats :=
  (List.perm_insertionSort pathLe
    (collect_config_paths env configs_dir allowed_formats)).mem_iff

/-- C9: the default allow-list of `read_all_configs` is `[YAML, JSON,
TOML]`, INI excluded; under the default, no discovered path ends in `.ini`
or `.cfg`, so `*.ini` / `*.cfg` files present in the directories are never
loaded or merged. -/
theorem c9_default_excludes_ini (env : Env) (configs_dir : List String) (p : String)
    (hp : p ∈ sorted_config_paths env configs_dir default_allowed_formats) :
    default_allowed_formats =
      [ConfigFileFormatEnum.YAML, ConfigFileFormatEnum.JSON, ConfigFileFormatEnum.TOML] ∧
    strEndsWith p ".ini" = false ∧ strEndsWith p ".cfg" = false := by
  have hp2 := (sorted_mem_iff env configs_dir default_allowed_formats p).mp hp
  obtain ⟨d, _, _, hmem⟩ :=
    (mem_collect_config_paths env default_allowed_formats configs_dir p).mp hp2
  obtain ⟨ext, hext, hglob⟩ :=
    (mem_dir_config_paths env (resolve_dir env d) default_allowed_formats p).mp hmem
  have hexts : active_exts default_allowed_formats = [".yaml", ".yml", ".json", ".toml"] := by
    decide
  rw [hexts] at hext
  obtain ⟨names, n, _, _, hmatch, hpeq⟩ :=
    (mem_glob_files env (resolve_dir env d) ext p).mp hglob
  have hend : strEndsWith n ext = true := by
    unfold glob_match at hmatch
    simp only [Bool.and_eq_true] at hmatch
    exact hmatch.1
  have hpend : strEndsWith p ext = true := by
    rw [hpeq]
    exact strEndsWith_path_join (resolve_dir env d) n ext hend
  simp only [List.mem_cons, List.not_mem_nil, or_false] at hext
  refine ⟨rfl, ?_, ?_⟩
  · cases hini : strEndsWith p ".ini" with
    | false => rfl
    | true =>
      exfalso
      rcases hext with rfl | rfl | rfl | rfl
      · exact not_ends_both p ".yaml" ".ini" hpend hini (by decide) (by decide)
      · exact not_ends_both p ".yml" ".ini" hpend hini (by decide) (by decide)
      · exact not_ends_both p ".json" ".ini" hpend hini (by decide) (by decide)
      · exact not_ends_both p ".toml" ".ini" hpend hini (by decide) (by decide)
  · cases hcfg : strEndsWith p ".cfg" with
    | false => rfl
    | true =>
      exfalso
      rcases hext with rfl | rfl | rfl | rfl
      · exact not_ends_both p ".yaml" ".cfg" hpend hcfg (by decide) (by decide)
      · exact not_ends_both p ".yml" ".cfg" hpend hcfg (by decide) (by decide)
      · exact not_ends_both p ".json" ".cfg" hpend hcfg (by decide) (by decide)
      · exact not_ends_both p ".toml" ".cfg" hpend hcfg (by decide) (by decide)

theorem c9_default_excludes_ini_witness :
    "/mixed/c.yaml" ∈ sorted_config_paths envDemo ["/mixed"] default_allowed_formats ∧
    "/mixed/n.ini" ∉ sorted_config_paths envDemo ["/mixed"] default_allowed_formats ∧
    strEndsWith "/mixed/c.yaml" ".ini" = false :=
  ⟨by decide, by decide,
    (c9_default_excludes_ini envDemo ["/mixed"] "/mixed/c.yaml" (by decide)).2.1⟩

/-- Replacing the directory index by one with the same directories whose
children are permutations leaves every per-directory glob a permutation. -/
theorem lookup_forall2_perm (d2 : List (String × List String))
    (l : List (String × List String))
    (hrel : List.Forall₂ (fun a b => a.1 = b.1 ∧ List.Perm a.2 b.2) l d2) (k : String) :
    (lookupAssoc k l = Option.none ∧ lookupAssoc k d2 = Option.none) ∨
      ∃ n1 n2, lookupAssoc k l = some n1 ∧ lookupAssoc k d2 = some n2 ∧
        List.Perm n1 n2 := by
  induction hrel with
  | nil => exact Or.inl ⟨rfl, rfl⟩
  | cons hab hrest ih =>
    rename_i a b l1 l2
    obtain ⟨hk, hperm⟩ := hab
    unfold lookupAssoc
    by_cases h : a.1 = k
    · rw [if_pos h, if_pos (hk ▸ h)]
      exact Or.inr ⟨a.2, b.2, rfl, rfl, hperm⟩
    · rw [if_neg h, if_neg (hk ▸ h)]
      exact ih

theorem glob_files_perm (env : Env) (d2 : List (String × List String))
    (hrel : List.Forall₂ (fun a b => a.1 = b.1 ∧ List.Perm a.2 b.2) env.dirsIndex d2)
    (dir ext : String) :
    List.Perm
      (glob_files (Env.mk env.files d2 env.cwd env.yaml_load env.json_load
        env.toml_load env.ini_parse) dir ext)
      (glob_files env dir ext) := by
  unfold glob_files
  rcases lookup_forall2_perm d2 env.dirsIndex hrel dir with ⟨h1, h2⟩ | ⟨n1, n2, h1, h2, hp⟩
  · show List.Perm (match lookupAssoc dir d2 with
      | Option.none => [] | some names => _) _
    rw [h1, h2]
  · show List.Perm (match lookupAssoc dir d2 with
      | Option.none => [] | some names => (names.filter (glob_match ext)).map (path_join dir)) _
    rw [h1, h2]
    exact ((hp.symm.filter (glob_match ext)).map (path_join dir))

theorem isdir_forall2 (env : Env) (d2 : List (String × List String))
    (hrel : List.Forall₂ (fun a b => a.1 = b.1 ∧ List.Perm a.2 b.2) env.dirsIndex d2)
    (dir : String) :
    os_path_isdir (Env.mk env.files d2 env.cwd env.yaml_load env.json_load
      env.toml_load env.ini_parse) dir = os_path_isdir env dir := by
  unfold os_path_isdir
  rcases lookup_forall2_perm d2 env.dirsIndex hrel dir with ⟨h1, h2⟩ | ⟨n1, n2, h1, h2, _⟩
  · show (lookupAssoc dir d2).isSome = (lookupAssoc dir env.dirsIndex).isSome
    rw [h1, h2]
  · show (lookupAssoc dir d2).isSome = (lookupAssoc dir env.dirsIndex).isSome
    rw [h1, h2]
    rfl

theorem perm_ite_bool (c1 c2 : Bool) (hc : c1 = c2) (a b : List String)
    (h : List.Perm a b) :
    List.Perm (if c1 = true then a else []) (if c2 = true then b else []) := by
  subst hc
  split
  · exact h
  · exact List.Perm.refl []

theorem dir_config_paths_perm (env : Env) (d2 : List (String × List String))
    (hrel : List.Forall₂ (fun a b => a.1 = b.1 ∧ List.Perm a.2 b.2) env.dirsIndex d2)
    (dir : String) (allowed_formats : List ConfigFileFormatEnum) :
    List.Perm
      (dir_config_paths (Env.mk env.files d2 env.cwd env.yaml_load env.json_load
        env.toml_load env.ini_parse) dir allowed_formats)
      (dir_config_paths env dir allowed_formats) := by
  unfold dir_config_paths
  refine List.Perm.append (List.Perm.append (List.Perm.append ?_ ?_) ?_) ?_ <;>
    split <;>
    first
      | exact List.Perm.refl []
      | exact glob_files_perm env d2 hrel dir _
      | exact List.Perm.append (glob_files_perm env d2 hrel dir _)
          (glob_files_perm env d2 hrel dir _)

theorem collect_config_paths_perm (env : Env) (d2 : List (String × List String))
    (hrel : List.Forall₂ (fun a b => a.1 = b.1 ∧ List.Perm a.2 b.2) env.dirsIndex d2)
    (allowed_formats : List ConfigFileFormatEnum) :
    ∀ configs_dir : List String,
      List.Perm
        (collect_config_paths (Env.mk env.files d2 env.cwd env.yaml_load env.json_load
          env.toml_load env.ini_parse) configs_dir allowed_formats)
        (collect_config_paths env configs_dir allowed_formats) := by
  intro configs_dir
  induction configs_dir with
  | nil => exact List.Perm.refl []
  | cons d rest ih =>
    unfold collect_config_paths
    exact List.Perm.append
      (perm_ite_bool _ _ (isdir_forall2 env d2 hrel (resolve_dir env d)) _ _
        (dir_config_paths_perm env d2 hrel (resolve_dir env d) allowed_formats)) ih

theorem read_all_configs_from_env_files (env : Env) (d2 : List (String × List String)) :
    ∀ (paths : List String) (acc : ConfigValue),
      read_all_configs_from (Env.mk env.files d2 env.cwd env.yaml_load env.json_load
        env.toml_load env.ini_parse) paths acc = read_all_configs_from env paths acc := by
  intro paths
  induction paths with
  | nil => intro acc; rfl
  | cons p rest ih =>
    intro acc
    unfold read_all_configs_from
    have hr : read_config_file (Env.mk env.files d2 env.cwd env.yaml_load env.json_load
        env.toml_load env.ini_parse) p = read_config_file env p := rfl
    rw [hr]
    cases read_config_file env p with
    | error e => rfl
    | ok d => exact ih (deep_merge acc d)

/-- Merging any accumulator with a mapping overlay that holds a non-mapping
value at `k` puts exactly that value at `k` in the (mapping) result. -/
theorem lookup_merge_overlay (base : ConfigValue) (o : ConfigMap) (k : String)
    (w : ConfigValue) (hlk : ConfigMap.lookup k o = some w) (hw : w.isDict = false) :
    ∃ m, deep_merge base (ConfigValue.dict o) = ConfigValue.dict m ∧
      ConfigMap.lookup k m = some w := by
  cases base with
  | dict b =>
    refine ⟨ConfigMap.append (mergeBase b o) (ConfigMap.filterNew b o), by simp [deep_merge], ?_⟩
    rw [lookup_deep_merge]
    cases hb : ConfigMap.lookup k b with
    | none => rw [hlk]
    | some v =>
      rw [hlk]
      show some (deep_merge v w) = some w
      rw [deep_merge_overlay_wins v w hw]
  | none => exact ⟨o, rfl, hlk⟩
  | bool b2 => exact ⟨o, rfl, hlk⟩
  | int n => exact ⟨o, rfl, hlk⟩
  | str s => exact ⟨o, rfl, hlk⟩
  | list xs => exact ⟨o, rfl, hlk⟩

theorem read_all_configs_from_last (env : Env) :
    ∀ (pre : List String) (p : String) (acc res : ConfigValue),
      read_all_configs_from env (pre ++ [p]) acc = Except.ok res →
      ∃ acc2 d, read_config_file env p = Except.ok d ∧ res = deep_merge acc2 d := by
  intro pre
  induction pre with
  | nil =>
    intro p acc res h
    rw [List.nil_append] at h
    unfold read_all_configs_from at h
    cases hp : read_config_file env p with
    | error e => rw [hp] at h; cases h
    | ok d =>
      rw [hp] at h
      unfold read_all_configs_from at h
      cases h
      exact ⟨acc, d, rfl, rfl⟩
  | cons q rest ih =>
    intro p acc res h
    rw [List.cons_append] at h
    unfold read_all_configs_from at h
    cases hq : read_config_file env q with
    | error e => rw [hq] at h; cases h
    | ok d => rw [hq] at h; exact ih p (deep_merge acc d) res h

/-- C5: the path list `read_all_configs` folds over is sorted ascending by
codepoint-lexicographic order on the full path string; the merged result
does not depend on the filesystem enumeration order of the directory
listings; and when the lexicographically last path's document holds a
non-mapping value at a key, the composite holds exactly that value there
(the later path wins). -/
theorem c5_sort_order_and_override (env : Env) (configs_dir : List String)
    (allowed_formats : List ConfigFileFormatEnum) :
    List.Sorted pathLe (sorted_config_paths env configs_dir allowed_formats) ∧
    (∀ d2 : List (String × List String),
      List.Forall₂ (fun a b => a.1 = b.1 ∧ List.Perm a.2 b.2) env.dirsIndex d2 →
      read_all_configs (Env.mk env.files d2 env.cwd env.yaml_load env.json_load
        env.toml_load env.ini_parse) configs_dir allowed_formats =
      read_all_configs env configs_dir allowed_formats) ∧
    (∀ (pre : List String) (p : String) (o : ConfigMap) (k : String)
        (w res : ConfigValue),
      sorted_config_paths env configs_dir allowed_formats = pre ++ [p] →
      read_config_file env p = Except.ok (ConfigValue.dict o) →
      ConfigMap.lookup k o = some w →
      w.isDict = false →
      read_all_configs env configs_dir allowed_formats = Except.ok res →
      ∃ m, res = ConfigValue.dict m ∧ ConfigMap.lookup k m = some w) := by
  refine ⟨List.sorted_insertionSort pathLe _, ?_, ?_⟩
  · intro d2 hrel
    have hperm : List.Perm
        (collect_config_paths (Env.mk env.files d2 env.cwd env.yaml_load env.json_load
          env.toml_load env.ini_parse) configs_dir allowed_formats)
        (collect_config_paths env configs_dir allowed_formats) :=
      collect_config_paths_perm env d2 hrel allowed_formats configs_dir
    have hsorteq : sorted_config_paths (Env.mk env.files d2 env.cwd env.yaml_load
        env.json_load env.toml_load env.ini_parse) configs_dir allowed_formats =
        sorted_config_paths env configs_dir allowed_formats :=
      List.eq_of_perm_of_sorted
        (((List.perm_insertionSort pathLe _).trans hperm).trans
          (List.perm_insertionSort pathLe _).symm)
        (List.sorted_insertionSort pathLe _)
        (List.sorted_insertionSort pathLe _)
    unfold read_all_configs
    rw [hsorteq]
    exact read_all_configs_from_env_files env d2
      (sorted_config_paths env configs_dir allowed_formats) (ConfigValue.dict ConfigMap.nil)
  · intro pre p o k w res hsplit hread hlk hw hall
    unfold read_all_configs at hall
    rw [hsplit] at hall
    obtain ⟨acc2, d, hd, hres⟩ :=
      read_all_configs_from_last env pre p (ConfigValue.dict ConfigMap.nil) res hall
    have hdo : d = ConfigValue.dict o := by
      rw [hd] at hread
      cases hread
      rfl
    subst hdo
    obtain ⟨m, hm, hlm⟩ := lookup_merge_overlay acc2 o k w hlk hw
    exact ⟨m, hres.trans hm, hlm⟩

theorem c5_sort_order_and_override_witness :
    sorted_config_paths envDemo ["/twin"] [ConfigFileFormatEnum.YAML] =
      ["/twin/a.yaml"] ++ ["/twin/b.yaml"] ∧
    read_config_file envDemo "/twin/b.yaml" =
      Except.ok (ConfigValue.dict (ConfigMap.cons "k" (ConfigValue.int 2) ConfigMap.nil)) ∧
    read_all_configs envDemo ["/twin"] [ConfigFileFormatEnum.YAML] =
      Except.ok (ConfigValue.dict (ConfigMap.cons "k" (ConfigValue.int 2) ConfigMap.nil)) ∧
    (∃ m, ConfigValue.dict (ConfigMap.cons "k" (ConfigValue.int 2) ConfigMap.nil) =
        ConfigValue.dict m ∧ ConfigMap.lookup "k" m = some (ConfigValue.int 2)) :=
  ⟨by decide, rfl, rfl,
    (c5_sort_order_and_override envDemo ["/twin"] [ConfigFileFormatEnum.YAML]).2.2
      ["/twin/a.yaml"] "/twin/b.yaml" (ConfigMap.cons "k" (ConfigValue.int 2) ConfigMap.nil)
      "k" (ConfigValue.int 2)
      (ConfigValue.dict (ConfigMap.cons "k" (ConfigValue.int 2) ConfigMap.nil))
      (by decide) rfl rfl rfl rfl⟩

theorem append_slash_cancel :
    ∀ (l1 l2 r1 r2 : List Char), l1 ++ '/' :: r1 = l2 ++ '/' :: r2 →
      '/' ∉ r1 → '/' ∉ r2 → l1 = l2 ∧ r1 = r2 := by
  intro l1
  induction l1 with
  | nil =>
    intro l2 r1 r2 h hr1 hr2
    cases l2 with
    | nil =>
      rw [List.nil_append, List.nil_append] at h
      simp only [List.cons.injEq, true_and] at h
      exact ⟨rfl, h⟩
    | cons c l2t =>
      rw [List.nil_append, List.cons_append] at h
      simp only [List.cons.injEq] at h
      exfalso
      exact hr1 (h.2 ▸ List.mem_append_right l2t (List.mem_cons_self _ _))
  | cons c l1t ih =>
    intro l2 r1 r2 h hr1 hr2
    cases l2 with
    | nil =>
      rw [List.cons_append, List.nil_append] at h
      simp only [List.cons.injEq] at h
      exfalso
      exact hr2 (h.2 ▸ List.mem_append_right l1t (List.mem_cons_self _ _))
    | cons c2 l2t =>
      rw [List.cons_append, List.cons_append] at h
      simp only [List.cons.injEq] at h
      obtain ⟨hl, hr⟩ := ih l2t r1 r2 h.2 hr1 hr2
      exact ⟨by rw [h.1, hl], hr⟩

theorem isabs_false_of_no_slash (n : String) (h : ('/' : Char) ∉ n.data) :
    path_isabs n = false := by
  unfold path_isabs strStartsWith
  rw [decide_eq_false_iff_not]
  intro hpre
  cases hpre with
  | intro t ht =>
    apply h
    rw [← ht]
    exact List.mem_append_left t (List.mem_cons_self _ _)

theorem path_join_data (d n : String)
    (hde : strEndsWith d "/" = false) (hdne : d ≠ "")
    (hn : ('/' : Char) ∉ n.data) :
    (path_join d n).data = d.data ++ '/' :: n.data := by
  unfold path_join
  rw [isabs_false_of_no_slash n hn]
  simp only [Bool.false_eq_true, if_false]
  rw [if_neg hdne]
  rw [hde]
  simp only [Bool.false_eq_true, if_false]
  rw [String.data_append, String.data_append, List.append_assoc]
  have hslash : ("/" : String).data = ['/'] := rfl
  rw [hslash]
  rfl

theorem path_join_inj_cross (d1 d2 n1 n2 : String)
    (hd1e : strEndsWith d1 "/" = false) (hd1ne : d1 ≠ "")
    (hd2e : strEndsWith d2 "/" = false) (hd2ne : d2 ≠ "")
    (hn1 : ('/' : Char) ∉ n1.data) (hn2 : ('/' : Char) ∉ n2.data)
    (h : path_join d1 n1 = path_join d2 n2) : d1 = d2 ∧ n1 = n2 := by
  have hdata : (path_join d1 n1).data = (path_join d2 n2).data := by rw [h]
  rw [path_join_data d1 n1 hd1e hd1ne hn1, path_join_data d2 n2 hd2e hd2ne hn2] at hdata
  obtain ⟨hd, hn⟩ := append_slash_cancel d1.data d2.data n1.data n2.data hdata hn1 hn2
  exact ⟨String.ext hd, String.ext hn⟩

theorem lookupAssoc_mem {α : Type} (k : String) (l : List (String × α)) (v : α)
    (h : lookupAssoc k l = some v) : (k, v) ∈ l := by
  induction l with
  | nil => cases h
  | cons kv rest ih =>
    unfold lookupAssoc at h
    by_cases hk : kv.1 = k
    · rw [if_pos hk] at h
      cases h
      subst hk
      rw [Prod.mk.eta]
      exact List.mem_cons_self _ _
    · rw [if_neg hk] at h
      exact List.mem_cons_of_mem kv (ih h)

/-- Well-formedness of a directory index as a real filesystem produces it:
each directory's child-name list has no duplicates and child names hold no
path separator. -/
def dirsIndexWF (env : Env) : Prop :=
  ∀ pr ∈ env.dirsIndex, pr.2.Nodup ∧ ∀ n ∈ pr.2, ('/' : Char) ∉ n.data

/-- A directory path in the shape `os.path.join` produces for an absolute
directory: non-empty and without a trailing separator. -/
def dirOK (dir : String) : Prop := strEndsWith dir "/" = false ∧ dir ≠ ""

/-- Two extensions neither of which is a suffix of the other, so that no
name can match both glob patterns. -/
def nonCosuffix (e1 e2 : String) : Prop :=
  ¬ e1.data <:+ e2.data ∧ ¬ e2.data <:+ e1.data

instance : DecidableRel nonCosuffix := fun a b =>
  inferInstanceAs (Decidable (¬ a.data <:+ b.data ∧ ¬ b.data <:+ a.data))

theorem nodup_glob_files (env : Env) (dir ext : String)
    (hwf : dirsIndexWF env) (hdir : dirOK dir) :
    (glob_files env dir ext).Nodup := by
  unfold glob_files
  cases h : lookupAssoc dir env.dirsIndex with
  | none => exact List.nodup_nil
  | some names =>
    obtain ⟨hnd, hns⟩ := hwf (dir, names) (lookupAssoc_mem dir env.dirsIndex names h)
    apply List.Nodup.map_on
    · intro n1 hn1 n2 hn2 hj
      have hs1 : ('/' : Char) ∉ n1.data := hns n1 (List.mem_of_mem_filter hn1)
      have hs2 : ('/' : Char) ∉ n2.data := hns n2 (List.mem_of_mem_filter hn2)
      exact (path_join_inj_cross dir dir n1 n2 hdir.1 hdir.2 hdir.1 hdir.2 hs1 hs2 hj).2
    · exact hnd.filter (glob_match ext)

theorem mem_glob_files_shape (env : Env) (dir ext p : String)
    (hwf : dirsIndexWF env) (hp : p ∈ glob_files env dir ext) :
    ∃ n, ('/' : Char) ∉ n.data ∧ strEndsWith n ext = true ∧ p = path_join dir n := by
  obtain ⟨names, n, hnames, hn, hmatch, hpeq⟩ := (mem_glob_files env dir ext p).mp hp
  obtain ⟨_, hns⟩ := hwf (dir, names) (lookupAssoc_mem dir env.dirsIndex names hnames)
  have hend : strEndsWith n ext = true := by
    unfold glob_match at hmatch
    simp only [Bool.and_eq_true] at hmatch
    exact hmatch.1
  exact ⟨n, hns n hn, hend, hpeq⟩

theorem glob_files_disjoint (env : Env) (dir e1 e2 : String)
    (hwf : dirsIndexWF env) (hdir : dirOK dir) (hcs : nonCosuffix e1 e2) :
    List.Disjoint (glob_files env dir e1) (glob_files env dir e2) := by
  intro p hp1 hp2
  obtain ⟨n1, hs1, hend1, hpeq1⟩ := mem_glob_files_shape env dir e1 p hwf hp1
  obtain ⟨n2, hs2, hend2, hpeq2⟩ := mem_glob_files_shape env dir e2 p hwf hp2
  have hn12 : n1 = n2 :=
    (path_join_inj_cross dir dir n1 n2 hdir.1 hdir.2 hdir.1 hdir.2 hs1 hs2
      (hpeq1 ▸ hpeq2)).2
  exact not_ends_both n1 e1 e2 hend1 (hn12 ▸ hend2) hcs.1 hcs.2

/-- Concatenation of the glob results of a list of extensions, the shape of
one directory's block of `read_all_configs`. -/
def glob_concat (env : Env) (dir : String) (exts : List String) : List String :=
  exts.foldr (fun e acc => glob_files env dir e ++ acc) []

theorem mem_glob_concat (env : Env) (dir : String) :
    ∀ (exts : List String) (p : String),
      p ∈ glob_concat env dir exts ↔ ∃ e ∈ exts, p ∈ glob_files env dir e := by
  intro exts
  induction exts with
  | nil => intro p; simp [glob_concat]
  | cons e rest ih =>
    intro p
    unfold glob_concat at ih ⊢
    simp only [List.foldr_cons, List.mem_append, List.mem_cons]
    constructor
    · intro h
      rcases h with h | h
      · exact ⟨e, Or.inl rfl, h⟩
      · obtain ⟨e2, he2, hmem⟩ := (ih p).mp h
        exact ⟨e2, Or.inr he2, hmem⟩
    · rintro ⟨e2, he2 | he2, hmem⟩
      · exact Or.inl (he2 ▸ hmem)
      · exact Or.inr ((ih p).mpr ⟨e2, he2, hmem⟩)

theorem nodup_glob_concat (env : Env) (dir : String)
    (hwf : dirsIndexWF env) (hdir : dirOK dir) :
    ∀ exts : List String, exts.Pairwise nonCosuffix →
      (glob_concat env dir exts).Nodup := by
  intro exts
  induction exts with
  | nil => intro _; exact List.nodup_nil
  | cons e rest ih =>
    intro hpw
    rw [List.pairwise_cons] at hpw
    unfold glob_concat
    rw [List.foldr_cons]
    rw [List.nodup_append]
    refine ⟨nodup_glob_files env dir e hwf hdir, ih hpw.2, ?_⟩
    intro p hp1 hp2
    obtain ⟨e2, he2, hmem⟩ := (mem_glob_concat env dir rest p).mp hp2
    exact glob_files_disjoint env dir e e2 hwf hdir (hpw.1 e2 he2) hp1 hmem

theorem dir_config_paths_eq_concat (env : Env) (dir : String)
    (allowed_formats : List ConfigFileFormatEnum) :
    dir_config_paths env dir allowed_formats =
      glob_concat env dir (active_exts allowed_formats) := by
  unfold dir_config_paths active_exts glob_concat
  by_cases hY : ConfigFileFormatEnum.YAML ∈ allowed_formats <;>
    by_cases hJ : ConfigFileFormatEnum.JSON ∈ allowed_formats <;>
      by_cases hT : ConfigFileFormatEnum.TOML ∈ allowed_formats <;>
        by_cases hI : ConfigFileFormatEnum.INI ∈ allowed_formats <;>
          simp [hY, hJ, hT, hI, List.append_assoc]

theorem pairwise_active_exts (allowed_formats : List ConfigFileFormatEnum) :
    (active_exts allowed_formats).Pairwise nonCosuffix := by
  unfold active_exts
  by_cases hY : ConfigFileFormatEnum.YAML ∈ allowed_formats <;>
    by_cases hJ : ConfigFileFormatEnum.JSON ∈ allowed_formats <;>
      by_cases hT : ConfigFileFormatEnum.TOML ∈ allowed_formats <;>
        by_cases hI : ConfigFileFormatEnum.INI ∈ allowed_formats <;>
          simp only [hY, hJ, hT, hI, if_true, if_false, List.nil_append,
            List.append_nil, List.cons_append, List.nil_append] <;>
          decide

theorem nodup_dir_config_paths (env : Env) (dir : String)
    (allowed_formats : List ConfigFileFormatEnum)
    (hwf : dirsIndexWF env) (hdir : dirOK dir) :
    (dir_config_paths env dir allowed_formats).Nodup := by
  rw [dir_config_paths_eq_concat]
  exact nodup_glob_concat env dir hwf hdir (active_exts allowed_formats)
    (pairwise_active_exts allowed_formats)

theorem mem_dir_config_paths_shape (env : Env) (dir p : String)
    (allowed_formats : List ConfigFileFormatEnum)
    (hwf : dirsIndexWF env) (hp : p ∈ dir_config_paths env dir allowed_formats) :
    ∃ n, ('/' : Char) ∉ n.data ∧ p = path_join dir n := by
  obtain ⟨ext, _, hglob⟩ :=
    (mem_dir_config_paths env dir allowed_formats p).mp hp
  obtain ⟨n, hs, _, hpeq⟩ := mem_glob_files_shape env dir ext p hwf hglob
  exact ⟨n, hs, hpeq⟩

theorem nodup_collect_config_paths (env : Env)
    (allowed_formats : List ConfigFileFormatEnum) (hwf : dirsIndexWF env) :
    ∀ configs_dir : List String,
      (configs_dir.map (resolve_dir env)).Nodup →
      (∀ d ∈ configs_dir, dirOK (resolve_dir env d)) →
      (collect_config_paths env configs_dir allowed_formats).Nodup := by
  intro configs_dir
  induction configs_dir with
  | nil => intro _ _; exact List.nodup_nil
  | cons d rest ih =>
    intro hnd hok
    rw [List.map_cons, List.nodup_cons] at hnd
    unfold collect_config_paths
    rw [List.nodup_append]
    have hdOK : dirOK (resolve_dir env d) := hok d (List.mem_cons_self d rest)
    refine ⟨?_, ih hnd.2 (fun d2 hd2 => hok d2 (List.mem_cons_of_mem d hd2)), ?_⟩
    · show (if os_path_isdir env (resolve_dir env d) = true then
          dir_config_paths env (resolve_dir env d) allowed_formats else []).Nodup
      split
      · exact nodup_dir_config_paths env (resolve_dir env d) allowed_formats hwf hdOK
      · exact List.nodup_nil
    · intro p hp1 hp2
      have hp1c : p ∈ (if os_path_isdir env (resolve_dir env d) = true then
          dir_config_paths env (resolve_dir env d) allowed_formats else []) := hp1
      have hp1b : p ∈ dir_config_paths env (resolve_dir env d) allowed_formats := by
        by_cases hc : os_path_isdir env (resolve_dir env d) = true
        · rwa [if_pos hc] at hp1c
        · rw [if_neg hc] at hp1c
          exact absurd hp1c (List.not_mem_nil p)
      obtain ⟨d2, hd2, _, hmem2⟩ :=
        (mem_collect_config_paths env allowed_formats rest p).mp hp2
      have hd2OK : dirOK (resolve_dir env d2) := hok d2 (List.mem_cons_of_mem d hd2)
      obtain ⟨n1, hs1, hpeq1⟩ :=
        mem_dir_config_paths_shape env (resolve_dir env d) p allowed_formats hwf hp1b
      obtain ⟨n2, hs2, hpeq2⟩ :=
        mem_dir_config_paths_shape env (resolve_dir env d2) p allowed_formats hwf hmem2
      have heq : resolve_dir env d = resolve_dir env d2 :=
        (path_join_inj_cross (resolve_dir env d) (resolve_dir env d2) n1 n2
          hdOK.1 hdOK.2 hd2OK.1 hd2OK.2 hs1 hs2 (hpeq1 ▸ hpeq2)).1
      exact hnd.1 (heq ▸ List.mem_map_of_mem (resolve_dir env) hd2)

/-- C7 counterexample: passing the same directory twice makes every matched
file appear twice in the sorted list `read_all_configs` folds over, so the
claim fails for inputs that repeat a directory. -/
theorem c7_counterexample :
    sorted_config_paths envDemo ["/twin", "/twin"] [ConfigFileFormatEnum.YAML] =
      ["/twin/a.yaml", "/twin/a.yaml", "/twin/b.yaml", "/twin/b.yaml"] ∧
    ¬ (sorted_config_paths envDemo ["/twin", "/twin"]
        [ConfigFileFormatEnum.YAML]).Nodup :=
  ⟨by decide, by decide⟩

/-- C7 amended: provided no two input directories resolve to the same path
(and the directory index is well formed as a real filesystem makes it:
child names unique within a directory and free of the path separator, and
each resolved directory path non-empty without a trailing separator), the
discovered path list contains no duplicate: the per-directory glob patterns
are pairwise disjoint and distinct directories yield distinct joined
paths. -/
theorem c7_no_duplicates (env : Env) (configs_dir : List String)
    (allowed_formats : List ConfigFileFormatEnum)
    (hwf : dirsIndexWF env)
    (hnd : (configs_dir.map (resolve_dir env)).Nodup)
    (hok : ∀ d ∈ configs_dir, dirOK (resolve_dir env d)) :
    (sorted_config_paths env configs_dir allowed_formats).Nodup := by
  have hc : (collect_config_paths env configs_dir allowed_formats).Nodup :=
    nodup_collect_config_paths env allowed_formats hwf configs_dir hnd hok
  exact (List.perm_insertionSort pathLe
    (collect_config_paths env configs_dir allowed_formats)).nodup_iff.mpr hc

theorem c7_no_duplicates_witness :
    dirsIndexWF envDemo ∧
    (sorted_config_paths envDemo ["/configs", "/twin"]
      default_allowed_formats).Nodup := by
  have hwf : dirsIndexWF envDemo := by
    unfold dirsIndexWF
    decide
  refine ⟨hwf, c7_no_duplicates envDemo ["/configs", "/twin"] default_allowed_formats
    hwf (by decide) ?_⟩
  intro d hd
  unfold dirOK
  rcases List.mem_cons.mp hd with rfl | hd2
  · exact ⟨by decide, by decide⟩
  · rcases List.mem_cons.mp hd2 with rfl | hd3
    · exact ⟨by decide, by decide⟩
    · exact absurd hd3 (List.not_mem_nil d)
